import Mathlib

/-!
Verification of the posthog-impact-dashboard core pipeline.

Shallow embedding of `src/fetch_data.py` (ingestion) and `src/score.py`
(scoring) in Lean 4.  Timestamps are modelled as integer seconds (the
Python code parses ISO strings into timezone-aware datetimes and only
compares / subtracts them, so integer seconds are a faithful model).
Floating-point score arithmetic is modelled over ℚ.  Strings are handled
at the `List Char` level so that everything kernel-evaluates.
-/

namespace Impact

/-! ## Raw upstream data (GraphQL page payloads, `fetch_data.py`) -/

/-- One raw review node as returned by the API (`reviews.nodes` entries).
`author = none` models a missing/null author or null login; `some ""`
models an empty login (both are falsy for Python's `or`). -/
structure RawReview where
  author : Option String
  state : Option String
  submittedAt : Option Int
deriving DecidableEq, Repr

/-- One raw pull-request node as returned by the API. -/
structure RawPR where
  number : Nat
  title : String
  url : String
  author : Option String
  createdAt : Int
  mergedAt : Option Int
  updatedAt : Option Int
  changedFiles : Nat
  additions : Nat
  deletions : Nat
  commentCount : Nat
  labels : List String
  files : List String
  reviews : List RawReview
deriving DecidableEq, Repr

/-- One page of the paged query: the node list plus the `pageInfo` flag
and cursor. -/
structure Page where
  nodes : List RawPR
  hasNextPage : Bool
  endCursor : Option String
deriving DecidableEq, Repr

/-! ## Normalized activity records (the rows `fetch_data.main` appends) -/

/-- A flattened review inside an activity row: `fetch_data.py` lines
151–158 keep `reviewer`, `state`, `submittedAt` for EVERY review node
(the submission timestamp stays optional at this stage). -/
structure ReviewFlat where
  reviewer : String
  state : Option String
  submittedAt : Option Int
deriving DecidableEq, Repr

/-- One row of the activity table (`rows.append({...})` in
`fetch_data.main`).  `mergedAt` is total: rows are only built for PRs
whose `mergedAt` is present. -/
structure Row where
  number : Nat
  title : String
  url : String
  author : String
  createdAt : Int
  mergedAt : Int
  updatedAt : Option Int
  changedFiles : Nat
  additions : Nat
  deletions : Nat
  commentCount : Nat
  labels : List String
  files : List String
  reviews : List ReviewFlat
deriving DecidableEq, Repr

/-- Python `(x or {}).get("login") or "unknown"`: both a missing author
object / login and an empty login fall back to `"unknown"`. -/
def orUnknown : Option String → String
  | none => "unknown"
  | some s => if s = "" then "unknown" else s

/-- Flattening of one embedded review (`fetch_data.py` lines 153–158):
the review is kept whether or not `submittedAt` is present. -/
def flattenReview (rv : RawReview) : ReviewFlat :=
  { reviewer := orUnknown rv.author
    state := rv.state
    submittedAt := rv.submittedAt }

/-- Construction of one activity row from a raw PR node whose merge time
`m` passed the window test (`fetch_data.py` lines 146–175). -/
def mkRow (pr : RawPR) (m : Int) : Row :=
  { number := pr.number
    title := pr.title
    url := pr.url
    author := orUnknown pr.author
    createdAt := pr.createdAt
    mergedAt := m
    updatedAt := pr.updatedAt
    changedFiles := pr.changedFiles
    additions := pr.additions
    deletions := pr.deletions
    commentCount := pr.commentCount
    labels := pr.labels
    files := pr.files
    reviews := pr.reviews.map flattenReview }

/-- Per-page loop body (`for pr in nodes`, lines 134–176): skip PRs with
no `mergedAt`, drop PRs with `merged_dt < SINCE_DT`, keep the rest. -/
def processPage (since : Int) (nodes : List RawPR) : List Row :=
  nodes.filterMap fun pr =>
    match pr.mergedAt with
    | none => none
    | some m => if m < since then none else some (mkRow pr m)

/-- The page-fetch loop of `fetch_data.main` (lines 125–195), driven by
the list of successive page payloads the upstream would return.  Returns
the collected rows and the number of pages requested.  The loop breaks
exactly when a page keeps zero in-window PRs (`kept_this_page == 0`);
the payload's `hasNextPage` flag is never consulted. -/
def fetchLoop (since : Int) : List Page → List Row × Nat
  | [] => ([], 0)
  | p :: rest =>
    let kept := processPage since p.nodes
    if kept.isEmpty then ([], 1)
    else
      let r := fetchLoop since rest
      (kept ++ r.1, r.2 + 1)

/-- End of `fetch_data.main` (lines 197–208): fatal `SystemExit` when no
rows were collected, otherwise the defensive final re-filter by
`mergedAt >= SINCE_DT` before the table is written. -/
def fetchMain (since : Int) (pages : List Page) : Except String (List Row) :=
  let rows := (fetchLoop since pages).1
  if rows.isEmpty then
    Except.error "No PRs collected"
  else
    Except.ok (rows.filter fun r => decide (since ≤ r.mergedAt))

/-! ## String matching helpers (`score.py` regexes)

The regexes of `score.py` are modelled at the `List Char` level.
`re.IGNORECASE` is modelled by ASCII-lowercasing the subject (the
patterns are already lowercase ASCII); `\b` uses ASCII word characters
`[A-Za-z0-9_]`. -/

/-- ASCII word character, as used by a regex `\b` boundary. -/
def isWordChar (c : Char) : Bool := c.isAlphanum || c == '_'

def lowerChars (s : List Char) : List Char := s.map Char.toLower

/-- Split a character list on `/` (used to model `(^|/)word(/|$)`:
such a pattern matches exactly when some slash-delimited segment equals
one of the words). -/
def splitSlashAux : List Char → List Char → List (List Char)
  | cur, [] => [cur.reverse]
  | cur, c :: rest =>
    if c == '/' then cur.reverse :: splitSlashAux [] rest
    else splitSlashAux (c :: cur) rest

/-- `re.search` of `(^|/)(w₁|...|wₙ)(/|$)` with `IGNORECASE` on path
`p`: some segment of the lowercased path equals one of the words. -/
def segMatch (words : List String) (p : String) : Bool :=
  (splitSlashAux [] (lowerChars p.data)).any fun seg =>
    words.any fun w => w.data == seg

/-- The word alternatives of `TEST_DOC_RE`. -/
def TEST_DOC_WORDS : List String :=
  ["test", "tests", "__tests__", "docs", "doc", "documentation"]

/-- The word alternatives of `INFRA_RE` (here `\.github` is a literal
dot). -/
def INFRA_WORDS : List String :=
  [".github", "ci", "infra", "infrastructure", "terraform", "docker",
   "kubernetes", "helm"]

/-- The word alternatives of `BUGFIX_RE`. -/
def BUGFIX_WORDS : List String :=
  ["fix", "bug", "regress", "hotfix", "incident", "crash"]

/-- `w` occurs at the head of `s` with a `\b` boundary after it. -/
def wordAt (w : List Char) (s : List Char) : Bool :=
  w.isPrefixOf s &&
    (match s.drop w.length with
     | [] => true
     | c :: _ => !isWordChar c)

/-- The char before the current position is not a word character (or we
are at the start of the string): the `\b` boundary before the word. -/
def boundaryOk : Option Char → Bool
  | none => true
  | some c => !isWordChar c

/-- `re.search` of `\b(w₁|...|wₙ)\b`: scan every position, tracking the
previous character for the left boundary. -/
def bugfixScan (ws : List (List Char)) : Option Char → List Char → Bool
  | prev, [] => boundaryOk prev && ws.any fun w => wordAt w []
  | prev, c :: rest =>
    (boundaryOk prev && ws.any fun w => wordAt w (c :: rest))
      || bugfixScan ws (some c) rest

/-- `CORE_MULTIPLIERS` pattern 1:
`^(posthog|plugin-server|frontend|backend|hogvm|hogql|ee|api|src|apps)/`
(case-sensitive, `re.search` with `^` anchors at the string start). -/
def CORE_WORDS_1 : List String :=
  ["posthog", "plugin-server", "frontend", "backend", "hogvm", "hogql",
   "ee", "api", "src", "apps"]

def coreMatch1 (p : String) : Bool :=
  CORE_WORDS_1.any fun w => (w.data ++ ['/']).isPrefixOf p.data

/-- `CORE_MULTIPLIERS` pattern 2:
`^(infrastructure|terraform|ops|docker|.github|helm|kubernetes)/`.
NOTE the `.github` alternative: the unescaped `.` matches any character
except a newline, so that alternative matches any path whose second
character onward starts with `github/`. -/
def CORE_WORDS_2 : List String :=
  ["infrastructure", "terraform", "ops", "docker", "helm", "kubernetes"]

def coreMatch2 (p : String) : Bool :=
  (CORE_WORDS_2.any fun w => (w.data ++ ['/']).isPrefixOf p.data)
    || (match p.data with
        | [] => false
        | c :: rest => (c != '\n') && ("github/".data).isPrefixOf rest)

/-! ## Scoring model weights (`score.py` lines 11–30) -/

def W_BASE_PR : ℕ := 10
def W_SIZE_M : ℕ := 4
def W_SIZE_L : ℕ := 8
def W_TESTS_DOCS : ℕ := 2
def W_BUGFIX : ℕ := 3
def W_INFRA_TOOLING : ℕ := 3
def W_REVIEW : ℕ := 2
def W_REVIEW_EARLY : ℕ := 1

/-- The ordered `(pattern, multiplier)` list `CORE_MULTIPLIERS`.  Python
floats `1.3` and `1.25` are modelled as the rationals they denote. -/
def CORE_MULTIPLIERS : List ((String → Bool) × ℚ) :=
  [(coreMatch1, 13/10), (coreMatch2, 5/4)]

def DEFAULT_MULT : ℚ := 1

/-! ## Scoring functions (`score.py`) -/

/-- `pr_size_bucket` (lines 33–42), verbatim S → M → L check order. -/
def pr_size_bucket (changed_files additions deletions : ℕ) : String :=
  let churn := additions + deletions
  if changed_files ≤ 5 && churn ≤ 200 then "S"
  else if changed_files ≤ 20 && churn ≤ 800 then "M"
  else "L"

/-- `core_multiplier` (lines 45–49): first matching pattern in the
ordered list wins; no match yields `DEFAULT_MULT`. -/
def coreMultAux : List ((String → Bool) × ℚ) → List String → ℚ
  | [], _ => DEFAULT_MULT
  | pm :: rest, files => if files.any pm.1 then pm.2 else coreMultAux rest files

def core_multiplier (files : List String) : ℚ :=
  coreMultAux CORE_MULTIPLIERS files

def has_tests_or_docs (files : List String) : Bool :=
  files.any (segMatch TEST_DOC_WORDS)

def is_bugfix (title : String) : Bool :=
  bugfixScan (BUGFIX_WORDS.map String.data) none (lowerChars title.data)

def is_infra_or_tooling (files : List String) : Bool :=
  files.any (segMatch INFRA_WORDS)

/-- The size bonus chosen in the scoring loop (lines 111–116). -/
def prSizePts (pr : Row) : ℕ :=
  let size := pr_size_bucket pr.changedFiles pr.additions pr.deletions
  if size = "M" then W_SIZE_M else if size = "L" then W_SIZE_L else 0

/-- Point total of one authored PR (lines 111–139): base + size bonus +
tests/docs bonus + bugfix bonus + infra bonus, then the whole sum is
multiplied by the core-area multiplier. -/
def prPoints (pr : Row) : ℚ :=
  let mult := core_multiplier pr.files
  let pts : ℚ := (W_BASE_PR : ℚ) + (prSizePts pr : ℚ)
  let pts := if has_tests_or_docs pr.files then pts + (W_TESTS_DOCS : ℚ) else pts
  let pts := if is_bugfix pr.title then pts + (W_BUGFIX : ℚ) else pts
  let pts := if is_infra_or_tooling pr.files then pts + (W_INFRA_TOOLING : ℚ) else pts
  pts * mult

/-- Two-decimal rendering of a multiplier, as Python's `f"{m:.2f}"`
produces for the exact hundredth values reachable here (1.30, 1.25). -/
def fmt2 (q : ℚ) : String :=
  let c : Int := (q * 100).num / ((q * 100).den : Int)
  let fr := (c % 100).toNat
  toString (c / 100) ++ "." ++
    (if fr < 10 then "0" ++ toString fr else toString fr)

/-- The `reasons` list built alongside the points (lines 121–141). -/
def prReasons (pr : Row) : List String :=
  let size := pr_size_bucket pr.changedFiles pr.additions pr.deletions
  let mult := core_multiplier pr.files
  let rs := ["Merged PR (+" ++ toString W_BASE_PR ++ ")"]
  let rs := if prSizePts pr ≠ 0 then
      rs ++ ["Size " ++ size ++ " (+" ++ toString (prSizePts pr) ++ ")"] else rs
  let rs := if has_tests_or_docs pr.files then
      rs ++ ["Tests/Docs (+" ++ toString W_TESTS_DOCS ++ ")"] else rs
  let rs := if is_bugfix pr.title then
      rs ++ ["Bugfix/Regression (+" ++ toString W_BUGFIX ++ ")"] else rs
  let rs := if is_infra_or_tooling pr.files then
      rs ++ ["Infra/Tooling (+" ++ toString W_INFRA_TOOLING ++ ")"] else rs
  if mult ≠ 1 then rs ++ ["Core area multiplier (x" ++ fmt2 mult ++ ")"] else rs

/-! ## The review table (`score.py` lines 79–99) -/

/-- One row of `reviews_df`: built only from reviews whose submission
timestamp is present; `early` is `(submitted - created) <= 24*3600`. -/
structure ReviewRow where
  reviewer : String
  pr_url : String
  pr_title : String
  submittedAt : Int
  early : Bool
deriving DecidableEq, Repr

def buildReviewRows (df : List Row) : List ReviewRow :=
  df.flatMap fun pr =>
    pr.reviews.filterMap fun rv =>
      match rv.submittedAt with
      | none => none
      | some s =>
        some { reviewer := rv.reviewer
               pr_url := pr.url
               pr_title := pr.title
               submittedAt := s
               early := decide (s - pr.createdAt ≤ 24 * 3600) }

/-- Points of one review (line 169): fixed value plus the early bonus. -/
def reviewPts (rr : ReviewRow) : ℚ :=
  (W_REVIEW : ℚ) + (if rr.early then (W_REVIEW_EARLY : ℚ) else 0)

/-! ## Per-contributor accumulation (the Python dict pattern) -/

/-- The Python pattern `d[k] = d.get(k, 0) + v` folded over a list,
modelled as a total function that is zero off the written keys. -/
def accumFrom {α : Type} (key : α → String) (val : α → ℚ) :
    (String → ℚ) → List α → String → ℚ
  | init, [] => init
  | init, x :: xs =>
    accumFrom key val (fun a => if a = key x then init a + val x else init a) xs

def accumF {α : Type} (key : α → String) (val : α → ℚ) (xs : List α) :
    String → ℚ :=
  accumFrom key val (fun _ => 0) xs

/-- `author_scores` (line 143). -/
def author_scores (df : List Row) : String → ℚ :=
  accumF Row.author prPoints df

/-- The `delivery` component of `author_breakdown` (lines 144–150): the
fold adds `pts` to `delivery` exactly for the records NOT matching the
infra/tooling pattern. -/
def delivery_breakdown (df : List Row) : String → ℚ :=
  accumF Row.author prPoints (df.filter fun pr => !is_infra_or_tooling pr.files)

/-- The `leadership` component of `author_breakdown` (lines 144–150). -/
def leadership_breakdown (df : List Row) : String → ℚ :=
  accumF Row.author prPoints (df.filter fun pr => is_infra_or_tooling pr.files)

/-- `reviewer_scores` (lines 163–171). -/
def reviewer_scores (df : List Row) : String → ℚ :=
  accumF ReviewRow.reviewer reviewPts (buildReviewRows df)

/-! ## Evidence (`score.py` lines 152–160, 172–179, 204–233) -/

structure EvidencePR where
  pts : ℚ
  title : String
  url : String
  why : String
deriving DecidableEq, Repr

/-- `author_top_prs[eng]`: one evidence entry per PR authored by `eng`,
in table order. -/
def author_top_prs (df : List Row) (eng : String) : List EvidencePR :=
  (df.filter fun pr => decide (pr.author = eng)).map fun pr =>
    { pts := prPoints pr
      title := pr.title
      url := pr.url
      why := String.intercalate ", " ((prReasons pr).take 3) }

/-- `reviewer_top_reviews[eng]`: the review rows submitted by `eng`. -/
def reviewer_top_reviews (df : List Row) (eng : String) : List ReviewRow :=
  (buildReviewRows df).filter fun rr => decide (rr.reviewer = eng)

/-- The "why" bullet string for one engineer (lines 204–231). -/
def whyOf (df : List Row) (eng : String) (leadership revScore : ℚ) : String :=
  let tops := author_top_prs df eng
  let b1 := if tops.isEmpty then [] else
    ["Shipped " ++ toString tops.length ++ " merged PRs (top examples linked)."]
  let b2 := if 0 < revScore then
      let revs := reviewer_top_reviews df eng
      let early_count := (revs.filter fun rr => rr.early).length
      ["Unblocked via " ++ toString revs.length ++ " reviews (" ++
        toString early_count ++ " early)."]
    else []
  let b3 := if 0 < leadership then
      ["Contributed leverage work (infra/tooling changes)."] else []
  let bullets := b1 ++ b2 ++ b3
  let bullets := if bullets.isEmpty then
      ["Contributed via merges and collaboration signals."] else bullets
  String.intercalate "\n" ((bullets.take 3).map fun b => "- " ++ b)

/-! ## The final contributor table (`score.py` lines 182–233) -/

structure ContributorScore where
  engineer : String
  impact_score : ℚ
  delivery : ℚ
  reviews : ℚ
  leadership : ℚ
  why : String
deriving DecidableEq, Repr

/-- One output row (lines 184–199 plus its later "why" column): totals
are looked up with default 0 and `total = delivery + leadership +
reviews`. -/
def scoreRow (df : List Row) (eng : String) : ContributorScore :=
  let d := delivery_breakdown df eng
  let l := leadership_breakdown df eng
  let rvw := reviewer_scores df eng
  { engineer := eng
    impact_score := d + l + rvw
    delivery := d
    reviews := rvw
    leadership := l
    why := whyOf df eng l rvw }

/-- First-occurrence deduplication, modelling the Python set union
`set(author_scores) | set(reviewer_scores)` (set iteration order is an
implementation detail; the rows are re-sorted by score anyway). -/
def dedupAux (seen : List String) : List String → List String
  | [] => []
  | x :: xs =>
    if x ∈ seen then dedupAux seen xs else x :: dedupAux (x :: seen) xs

def dedupKeepFirst (xs : List String) : List String := dedupAux [] xs

/-- The contributor universe `engineers` (line 182): authors of table
rows together with reviewers of the review table. -/
def engineersOf (df : List Row) : List String :=
  dedupKeepFirst (df.map Row.author ++ (buildReviewRows df).map ReviewRow.reviewer)

/-- Stable descending insertion by `impact_score`, modelling
`sort_values("impact_score", ascending=False)` (order among equal
scores is implementation-defined in the source, spec §9). -/
def insertByScore (x : ContributorScore) :
    List ContributorScore → List ContributorScore
  | [] => [x]
  | y :: ys =>
    if y.impact_score < x.impact_score then x :: y :: ys
    else y :: insertByScore x ys

def sortByScoreDesc : List ContributorScore → List ContributorScore
  | [] => []
  | x :: xs => insertByScore x (sortByScoreDesc xs)

/-- The Scoring Engine end to end: one row per engineer in the universe,
sorted by descending impact score. -/
def scoreTable (df : List Row) : List ContributorScore :=
  sortByScoreDesc ((engineersOf df).map (scoreRow df))

/-! ## Derived formulas used to state the claims -/

/-- The accumulated pre-multiplier total of one record, written as the
spec describes it: base + size bonus + tests/docs bonus + bugfix bonus +
infra bonus. -/
def prBaseBonuses (pr : Row) : ℚ :=
  (W_BASE_PR : ℚ) + (prSizePts pr : ℚ)
    + (if has_tests_or_docs pr.files then (W_TESTS_DOCS : ℚ) else 0)
    + (if is_bugfix pr.title then (W_BUGFIX : ℚ) else 0)
    + (if is_infra_or_tooling pr.files then (W_INFRA_TOOLING : ℚ) else 0)

/-! ## IEEE-754 binary64 model for the score multiplication

`score.py:139` computes `pts = pts * mult` where `pts` is a Python int
(base and bonuses are integer weights, at most 26) and `mult` is one of
the float literals `1.3`, `1.25`, `1.0`.  Python floats are IEEE-754
binary64; the int converts exactly and the single multiplication rounds
to nearest, ties to even.  The model below represents positive normal
doubles canonically as `m * 2^e` with `2^52 ≤ m < 2^53` and is exact for
the magnitudes reachable here (values in `[1, 2^63)`). -/

/-- A positive binary64 value `m * 2^e`, canonical when
`2^52 ≤ m < 2^53`. -/
structure Fp where
  m : Nat
  e : Int
deriving DecidableEq, Repr

/-- Fuelled ⌊log₂⌋ by halving (fuel 64 suffices below `2^64`). -/
def log2F : Nat → Nat → Nat
  | 0, _ => 0
  | f+1, n => if n ≥ 2 then log2F f (n / 2) + 1 else 0

def natLog2 (n : Nat) : Nat := log2F 64 n

/-- Round `n / d` to the nearest integer, ties to even. -/
def rneDiv (n d : Nat) : Nat :=
  let q := n / d
  let r := n % d
  if 2 * r > d then q + 1
  else if 2 * r < d then q
  else if q % 2 = 0 then q else q + 1

/-- The binary64 nearest to the positive rational `n / d` (for values in
`[1, 2^63)`): this is how the interpreter parses the float literals
`1.3`, `1.25`, `1.0` and converts the integer `pts`. -/
def fp64ofRat (n d : Nat) : Fp :=
  let t := natLog2 (n / d)
  let m := rneDiv (n * 2^(52 - t)) d
  if m = 2^53 then ⟨2^52, (t : Int) - 51⟩ else ⟨m, (t : Int) - 52⟩

/-- binary64 multiplication: exact product of the mantissas, rounded
back to 53 bits, nearest, ties to even. -/
def fp64mul (a b : Fp) : Fp :=
  let p := a.m * b.m
  let k : Nat := if p < 2^105 then 52 else 53
  let m := rneDiv p (2^k)
  if m = 2^53 then ⟨2^52, a.e + b.e + (k : Int) + 1⟩
  else ⟨m, a.e + b.e + (k : Int)⟩

/-- The integer value the program holds in `pts` just before
`score.py:139` (base and all bonuses are Python ints). -/
def prBaseBonusesN (pr : Row) : ℕ :=
  W_BASE_PR + prSizePts pr
    + (if has_tests_or_docs pr.files then W_TESTS_DOCS else 0)
    + (if is_bugfix pr.title then W_BUGFIX else 0)
    + (if is_infra_or_tooling pr.files then W_INFRA_TOOLING else 0)

/-- The first-match-wins multiplier as the binary64 value of the float
literal the program actually holds (`1.3`, `1.25` or the default
`1.0`). -/
def coreMultFP (files : List String) : Fp :=
  if files.any coreMatch1 then fp64ofRat 13 10
  else if files.any coreMatch2 then fp64ofRat 5 4
  else fp64ofRat 1 1

/-- `pts = pts * mult` of `score.py:139` in IEEE binary64: the integer
`pts` converts exactly and the one multiplication rounds. -/
def prPointsFP (pr : Row) : Fp :=
  fp64mul (fp64ofRat (prBaseBonusesN pr) 1) (coreMultFP pr.files)

/-! ## Concrete inputs for the individual claims -/

/-- C1 witness data: one in-window PR on page one, then an empty page. -/
def c1pr : RawPR :=
  { number := 1, title := "t", url := "u1", author := some "alice",
    createdAt := 0, mergedAt := some 10, updatedAt := none,
    changedFiles := 1, additions := 1, deletions := 0, commentCount := 0,
    labels := [], files := [], reviews := [] }

def c1page : Page := { nodes := [c1pr], hasNextPage := true, endCursor := some "c" }

def c1pageEmpty : Page := { nodes := [], hasNextPage := false, endCursor := none }

def c1row : Row := mkRow c1pr 10

/-- C2 data: a review submitted exactly 24h00m00s after creation. -/
def c2review : ReviewFlat :=
  { reviewer := "bob", state := some "APPROVED", submittedAt := some 86400 }

def c2row : Row :=
  { number := 2, title := "t2", url := "u2", author := "alice",
    createdAt := 0, mergedAt := 0, updatedAt := none, changedFiles := 1,
    additions := 0, deletions := 0, commentCount := 0, labels := [],
    files := [], reviews := [c2review] }

/-- C3 data: page 1 holds one out-of-window PR (dropped) and one
in-window PR, and it announces `hasNextPage = false`; page 2 is what the
upstream would serve if asked again. -/
def c3prOld : RawPR :=
  { number := 30, title := "old", url := "u30", author := some "carol",
    createdAt := -20, mergedAt := some (-5), updatedAt := none,
    changedFiles := 1, additions := 0, deletions := 0, commentCount := 0,
    labels := [], files := [], reviews := [] }

def c3prNew : RawPR :=
  { number := 31, title := "new", url := "u31", author := some "alice",
    createdAt := 0, mergedAt := some 5, updatedAt := none,
    changedFiles := 1, additions := 0, deletions := 0, commentCount := 0,
    labels := [], files := [], reviews := [] }

def c3page1 : Page :=
  { nodes := [c3prOld, c3prNew], hasNextPage := false, endCursor := none }

def c3page2 : Page := { nodes := [], hasNextPage := false, endCursor := none }

/-- C4 data: base 10 + size L 8 + tests/docs 2 = 20 before the 1.3×
core multiplier. -/
def c4row20 : Row :=
  { number := 4, title := "add feature", url := "u4", author := "alice",
    createdAt := 0, mergedAt := 0, updatedAt := none, changedFiles := 21,
    additions := 0, deletions := 0, commentCount := 0, labels := [],
    files := ["src/tests/a.py"], reviews := [] }

/-- C4 data: the spec's end-to-end example record. -/
def c4specRow : Row :=
  { number := 5, title := "fix crash on login", url := "u5", author := "alice",
    createdAt := 0, mergedAt := 0, updatedAt := none, changedFiles := 1,
    additions := 50, deletions := 10, commentCount := 0, labels := [],
    files := ["src/app.py"], reviews := [] }

/-- C5 witness data: a record touching an infra/tooling path. -/
def c5pr : Row :=
  { number := 6, title := "update ci", url := "u6", author := "dana",
    createdAt := 0, mergedAt := 0, updatedAt := none, changedFiles := 1,
    additions := 1, deletions := 0, commentCount := 0, labels := [],
    files := [".github/workflows/ci.yml"], reviews := [] }

/-- C6 data: a PR whose embedded review has no submission timestamp. -/
def c6review : RawReview :=
  { author := some "erin", state := some "COMMENTED", submittedAt := none }

def c6pr : RawPR :=
  { number := 7, title := "t7", url := "u7", author := some "alice",
    createdAt := 0, mergedAt := some 3, updatedAt := none,
    changedFiles := 1, additions := 0, deletions := 0, commentCount := 0,
    labels := [], files := [], reviews := [c6review] }

def c6page1 : Page := { nodes := [c6pr], hasNextPage := true, endCursor := some "c" }

def c6pageEmpty : Page := { nodes := [], hasNextPage := false, endCursor := none }

/-- C7 witness data: `bob` only reviews, never authors. -/
def c7review : ReviewFlat :=
  { reviewer := "bob", state := some "APPROVED", submittedAt := some 100 }

def c7pr : Row :=
  { number := 8, title := "t8", url := "u8", author := "alice",
    createdAt := 0, mergedAt := 0, updatedAt := none, changedFiles := 1,
    additions := 0, deletions := 0, commentCount := 0, labels := [],
    files := [], reviews := [c7review] }

def c7df : List Row := [c7pr]

/-- C8 witness data: a single page whose only PR is out of window, so
zero records survive. -/
def c8prOld : RawPR :=
  { number := 9, title := "t9", url := "u9", author := some "carol",
    createdAt := -10, mergedAt := some (-1), updatedAt := none,
    changedFiles := 1, additions := 0, deletions := 0, commentCount := 0,
    labels := [], files := [], reviews := [] }

def c8page : Page := { nodes := [c8prOld], hasNextPage := true, endCursor := some "c" }

/-- C10 witness data: a review whose author is missing. -/
def c10review : RawReview :=
  { author := none, state := some "APPROVED", submittedAt := some 50 }

/-! ## General lemmas about the embedding -/

theorem processPage_mem_since {since : Int} {nodes : List RawPR} {r : Row}
    (h : r ∈ processPage since nodes) : since ≤ r.mergedAt := by
  unfold processPage at h
  rw [List.mem_filterMap] at h
  obtain ⟨pr, _, hpr⟩ := h
  cases hm : pr.mergedAt with
  | none => rw [hm] at hpr; simp at hpr
  | some m =>
    rw [hm] at hpr
    by_cases hlt : m < since
    · simp [hlt] at hpr
    · simp [hlt] at hpr
      subst hpr
      simpa [mkRow] using le_of_not_lt hlt

theorem fetchLoop_mem_since {since : Int} {pages : List Page} {r : Row}
    (h : r ∈ (fetchLoop since pages).1) : since ≤ r.mergedAt := by
  induction pages with
  | nil => simp [fetchLoop] at h
  | cons p rest ih =>
    by_cases he : (processPage since p.nodes).isEmpty
    · simp [fetchLoop, he] at h
    · simp only [fetchLoop, he, Bool.false_eq_true, if_false, List.mem_append] at h
      rcases h with h1 | h2
      · exact processPage_mem_since h1
      · exact ih h2

theorem accumFrom_apply {α : Type} (key : α → String) (val : α → ℚ)
    (init : String → ℚ) (xs : List α) (a : String) :
    accumFrom key val init xs a =
      init a + ((xs.filter fun x => decide (key x = a)).map val).sum := by
  induction xs generalizing init with
  | nil => simp [accumFrom]
  | cons x xs ih =>
    simp only [accumFrom, ih]
    by_cases h : key x = a
    · rw [List.filter_cons_of_pos (by simpa using h), List.map_cons,
        List.sum_cons, if_pos h.symm]
      ring
    · rw [List.filter_cons_of_neg (by simpa using h),
        if_neg fun hc => h hc.symm]

theorem accumF_apply {α : Type} (key : α → String) (val : α → ℚ)
    (xs : List α) (a : String) :
    accumF key val xs a =
      ((xs.filter fun x => decide (key x = a)).map val).sum := by
  rw [accumF, accumFrom_apply]
  simp

theorem accumF_eq_zero {α : Type} (key : α → String) (val : α → ℚ)
    (xs : List α) (a : String) (h : ∀ x ∈ xs, key x ≠ a) :
    accumF key val xs a = 0 := by
  rw [accumF_apply]
  have he : xs.filter (fun x => decide (key x = a)) = [] :=
    List.filter_eq_nil_iff.mpr (by intro x hx; simpa using h x hx)
  simp [he]

theorem dedupAux_mem (seen xs : List String) (a : String) :
    a ∈ dedupAux seen xs ↔ a ∈ xs ∧ a ∉ seen := by
  induction xs generalizing seen with
  | nil => simp [dedupAux]
  | cons x xs ih =>
    by_cases h : x ∈ seen
    · rw [dedupAux, if_pos h, ih seen]
      constructor
      · rintro ⟨h1, h2⟩
        exact ⟨List.mem_cons_of_mem _ h1, h2⟩
      · rintro ⟨h1, h2⟩
        rcases List.mem_cons.mp h1 with rfl | h1
        · exact absurd h h2
        · exact ⟨h1, h2⟩
    · rw [dedupAux, if_neg h]
      constructor
      · intro hmem
        rcases List.mem_cons.mp hmem with rfl | hmem2
        · exact ⟨List.mem_cons_self _ _, h⟩
        · obtain ⟨h1, h2⟩ := (ih (x :: seen)).mp hmem2
          exact ⟨List.mem_cons_of_mem _ h1, fun hc => h2 (List.mem_cons_of_mem _ hc)⟩
      · rintro ⟨hmem, h2⟩
        rcases List.mem_cons.mp hmem with rfl | h1
        · exact List.mem_cons_self _ _
        · by_cases hax : a = x
          · subst hax
            exact List.mem_cons_self _ _
          · refine List.mem_cons_of_mem _ ((ih (x :: seen)).mpr ⟨h1, fun hc => ?_⟩)
            exact (List.mem_cons.mp hc).elim hax h2

theorem dedupAux_nodup (seen xs : List String) : (dedupAux seen xs).Nodup := by
  induction xs generalizing seen with
  | nil => simp [dedupAux]
  | cons x xs ih =>
    by_cases h : x ∈ seen
    · rw [dedupAux, if_pos h]; exact ih seen
    · rw [dedupAux, if_neg h]
      refine List.nodup_cons.mpr ⟨fun hx => ?_, ih _⟩
      exact ((dedupAux_mem _ _ _).mp hx).2 (List.mem_cons_self x seen)

theorem dedupKeepFirst_mem (xs : List String) (a : String) :
    a ∈ dedupKeepFirst xs ↔ a ∈ xs := by
  rw [dedupKeepFirst, dedupAux_mem]
  simp

theorem dedupKeepFirst_nodup (xs : List String) : (dedupKeepFirst xs).Nodup :=
  dedupAux_nodup [] xs

theorem insertByScore_perm (x : ContributorScore) (l : List ContributorScore) :
    List.Perm (insertByScore x l) (x :: l) := by
  induction l with
  | nil => exact List.Perm.refl _
  | cons y ys ih =>
    rw [insertByScore]
    by_cases h : y.impact_score < x.impact_score
    · rw [if_pos h]
    · rw [if_neg h]
      exact (ih.cons y).trans (List.Perm.swap x y ys)

theorem sortByScoreDesc_perm (l : List ContributorScore) :
    List.Perm (sortByScoreDesc l) l := by
  induction l with
  | nil => exact List.Perm.refl _
  | cons x xs ih =>
    rw [sortByScoreDesc]
    exact (insertByScore_perm x (sortByScoreDesc xs)).trans (ih.cons x)

theorem scoreRow_engineer (df : List Row) (e : String) :
    (scoreRow df e).engineer = e := rfl

theorem scoreRow_delivery (df : List Row) (e : String) :
    (scoreRow df e).delivery = delivery_breakdown df e := rfl

theorem scoreRow_leadership (df : List Row) (e : String) :
    (scoreRow df e).leadership = leadership_breakdown df e := rfl

theorem scoreRow_reviews (df : List Row) (e : String) :
    (scoreRow df e).reviews = reviewer_scores df e := rfl

theorem scoreTable_map_engineer_perm (df : List Row) :
    List.Perm ((scoreTable df).map ContributorScore.engineer) (engineersOf df) := by
  have hp := (sortByScoreDesc_perm ((engineersOf df).map (scoreRow df))).map
    ContributorScore.engineer
  rw [scoreTable]
  refine hp.trans ?_
  rw [List.map_map]
  have : ContributorScore.engineer ∘ scoreRow df = id := funext fun e => rfl
  rw [this, List.map_id]

theorem core_multiplier_of_match1 (files : List String)
    (h : files.any coreMatch1 = true) : core_multiplier files = 13/10 := by
  rw [core_multiplier, CORE_MULTIPLIERS, coreMultAux, if_pos h]

theorem core_multiplier_of_match2 (files : List String)
    (h1 : files.any coreMatch1 = false) (h2 : files.any coreMatch2 = true) :
    core_multiplier files = 5/4 := by
  rw [core_multiplier, CORE_MULTIPLIERS, coreMultAux]
  rw [if_neg (by simp [h1]), coreMultAux, if_pos h2]

theorem core_multiplier_of_no_match (files : List String)
    (h1 : files.any coreMatch1 = false) (h2 : files.any coreMatch2 = false) :
    core_multiplier files = 1 := by
  rw [core_multiplier, CORE_MULTIPLIERS, coreMultAux]
  rw [if_neg (by simp [h1]), coreMultAux, if_neg (by simp [h2]), coreMultAux]
  rfl

theorem prPoints_eq (pr : Row) :
    prPoints pr = prBaseBonuses pr * core_multiplier pr.files := by
  rw [prPoints, prBaseBonuses]
  split_ifs <;> ring

theorem reviewPts_pos (rr : ReviewRow) : 0 < reviewPts rr := by
  rw [reviewPts]
  split_ifs <;> norm_num [W_REVIEW, W_REVIEW_EARLY]

theorem reviewer_scores_pos (df : List Row) (eng : String)
    (h : eng ∈ (buildReviewRows df).map ReviewRow.reviewer) :
    0 < reviewer_scores df eng := by
  rw [reviewer_scores, accumF_apply]
  obtain ⟨rr, hrr, heq⟩ := List.mem_map.mp h
  have hfil : rr ∈ (buildReviewRows df).filter
      (fun x => decide (ReviewRow.reviewer x = eng)) :=
    List.mem_filter.mpr ⟨hrr, by simp [heq]⟩
  refine List.sum_pos _ (fun q hq => ?_) ?_
  · obtain ⟨rr2, _, rfl⟩ := List.mem_map.mp hq
    exact reviewPts_pos rr2
  · exact List.ne_nil_of_mem (List.mem_map_of_mem reviewPts hfil)

theorem filterMapReviews_length (f : ReviewFlat → Option ReviewRow)
    (hf : ∀ rv, (f rv).isSome = rv.submittedAt.isSome) (l : List ReviewFlat) :
    (l.filterMap f).length = (l.filter fun rv => rv.submittedAt.isSome).length := by
  induction l with
  | nil => rfl
  | cons rv l ih =>
    rw [List.filterMap_cons, List.filter_cons]
    have hs := hf rv
    cases h : f rv with
    | none =>
      rw [h] at hs
      simp only [Option.isSome_none] at hs
      simp [← hs, ih]
    | some y =>
      rw [h] at hs
      simp only [Option.isSome_some] at hs
      simp [← hs, ih]

theorem buildReviewRows_length (df : List Row) :
    (buildReviewRows df).length =
      (df.map fun pr =>
        (pr.reviews.filter fun rv => rv.submittedAt.isSome).length).sum := by
  induction df with
  | nil => rfl
  | cons pr df ih =>
    rw [buildReviewRows, List.flatMap_cons, List.length_append,
      List.map_cons, List.sum_cons, ← buildReviewRows, ih]
    congr 1
    apply filterMapReviews_length
    intro rv
    cases rv.submittedAt <;> rfl

theorem accumF_append {α : Type} (key : α → String) (val : α → ℚ)
    (xs ys : List α) (a : String) :
    accumF key val (xs ++ ys) a = accumF key val xs a + accumF key val ys a := by
  rw [accumF_apply, accumF_apply, accumF_apply, List.filter_append,
    List.map_append, List.sum_append]

theorem accumF_singleton {α : Type} (key : α → String) (val : α → ℚ) (x : α) :
    accumF key val [x] (key x) = val x := by
  rw [accumF_apply]
  simp

/-! ## The claims -/

/-- C1: every record in the final activity table produced by the
ingestion pipeline has its merged timestamp inside the trailing window
(`merged_time >= window_start`): each fetched record is tested
individually against the window, and the defensive final pass re-filters
the whole table before it is frozen, so no out-of-window record survives
to the output. -/
theorem c1_window_invariant (since : Int) (pages : List Page)
    (out : List Row) (r : Row)
    (h : fetchMain since pages = Except.ok out) (hr : r ∈ out) :
    since ≤ r.mergedAt := by
  rw [fetchMain] at h
  by_cases he : (fetchLoop since pages).1.isEmpty
  · simp [he] at h
  · simp only [he, Bool.false_eq_true, if_false, Except.ok.injEq] at h
    subst h
    simpa using (List.mem_filter.mp hr).2

/-- C1 witness: a concrete two-page run keeping one in-window record. -/
theorem c1_window_invariant_witness :
    fetchMain 0 [c1page, c1pageEmpty] = Except.ok [c1row] ∧
    c1row ∈ [c1row] ∧ (0 : Int) ≤ c1row.mergedAt :=
  ⟨rfl, by simp,
    c1_window_invariant 0 [c1page, c1pageEmpty] [c1row] c1row rfl (by simp)⟩

/-- C2 counterexample: the claim says a review submitted at exactly
24h00m00s after creation is NOT early, but the code computes
`(submitted - created) <= 24*3600`, so at exactly 24 hours the early
flag is `true` and the bonus point is granted (3 points, not 2). -/
theorem c2_counterexample :
    ((buildReviewRows [c2row]).map fun rr => rr.early) = [true] ∧
    (buildReviewRows [c2row]).map reviewPts = [3] := by
  constructor
  · decide
  · show [(W_REVIEW : ℚ) + (if true then (W_REVIEW_EARLY : ℚ) else 0)] = [3]
    norm_num [W_REVIEW, W_REVIEW_EARLY]

/-- C2 (amended): the early-review bonus is granted iff the review was
submitted at most 24 hours after the record's creation (inclusive
boundary): at exactly 24h00m00s the bonus IS granted, and it is denied
only strictly beyond 24 hours. -/
theorem c2_early_bonus_inclusive (df : List Row) (pr : Row)
    (rv : ReviewFlat) (s : Int) (hpr : pr ∈ df) (hrv : rv ∈ pr.reviews)
    (hs : rv.submittedAt = some s) :
    ∃ rr ∈ buildReviewRows df, rr.reviewer = rv.reviewer ∧
      rr.submittedAt = s ∧
      (rr.early = true ↔ s - pr.createdAt ≤ 24 * 3600) ∧
      (s - pr.createdAt ≤ 24 * 3600 →
        reviewPts rr = (W_REVIEW : ℚ) + (W_REVIEW_EARLY : ℚ)) ∧
      (¬ s - pr.createdAt ≤ 24 * 3600 → reviewPts rr = (W_REVIEW : ℚ)) := by
  refine ⟨{ reviewer := rv.reviewer, pr_url := pr.url, pr_title := pr.title,
            submittedAt := s,
            early := decide (s - pr.createdAt ≤ 24 * 3600) }, ?_, rfl, rfl,
          ?_, ?_, ?_⟩
  · rw [buildReviewRows]
    refine List.mem_flatMap.mpr ⟨pr, hpr, ?_⟩
    refine List.mem_filterMap.mpr ⟨rv, hrv, ?_⟩
    rw [hs]
  · simp
  · intro hle
    have hd : decide (s - pr.createdAt ≤ 24 * 3600) = true := by simpa using hle
    rw [reviewPts]
    show (W_REVIEW : ℚ) +
        (if decide (s - pr.createdAt ≤ 24 * 3600) = true
          then (W_REVIEW_EARLY : ℚ) else 0) =
      (W_REVIEW : ℚ) + (W_REVIEW_EARLY : ℚ)
    rw [hd]
    simp
  · intro hgt
    have hd : decide (s - pr.createdAt ≤ 24 * 3600) = false := by
      simpa using hgt
    rw [reviewPts]
    show (W_REVIEW : ℚ) +
        (if decide (s - pr.createdAt ≤ 24 * 3600) = true
          then (W_REVIEW_EARLY : ℚ) else 0) =
      (W_REVIEW : ℚ)
    rw [hd]
    simp

/-- C2 witness: the amended boundary behaviour at exactly 24 hours. -/
theorem c2_early_bonus_inclusive_witness :
    c2row ∈ [c2row] ∧ c2review ∈ c2row.reviews ∧
    c2review.submittedAt = some 86400 ∧
    (∃ rr ∈ buildReviewRows [c2row], rr.reviewer = c2review.reviewer ∧
      rr.submittedAt = 86400 ∧
      (rr.early = true ↔ (86400 : Int) - c2row.createdAt ≤ 24 * 3600) ∧
      ((86400 : Int) - c2row.createdAt ≤ 24 * 3600 →
        reviewPts rr = (W_REVIEW : ℚ) + (W_REVIEW_EARLY : ℚ)) ∧
      (¬ (86400 : Int) - c2row.createdAt ≤ 24 * 3600 →
        reviewPts rr = (W_REVIEW : ℚ))) :=
  ⟨by simp, by simp [c2row], rfl,
    c2_early_bonus_inclusive [c2row] c2row c2review 86400 (by simp)
      (by simp [c2row]) rfl⟩

/-- C3 counterexample: page 1 announces `hasNextPage = false`, yet after
keeping its in-window record the loop still requests a second page: the
upstream end-of-pages signal does not stop the loop (the code never
reads the flag). -/
theorem c3_counterexample :
    c3page1.hasNextPage = false ∧ (fetchLoop 0 [c3page1, c3page2]).2 = 2 :=
  ⟨rfl, by decide⟩

/-- C3 (amended): the loop stops exactly when a page yields zero
in-window records; the upstream `hasNextPage` flag is ignored (after a
final page that still has in-window records, one further page is
requested).  Records failing the window test are dropped individually
and do not stop the loop. -/
theorem c3_stop_rule (since : Int) (p : Page) (rest : List Page) :
    (processPage since p.nodes = [] → fetchLoop since (p :: rest) = ([], 1)) ∧
    (processPage since p.nodes ≠ [] →
      (fetchLoop since (p :: rest)).1 =
        processPage since p.nodes ++ (fetchLoop since rest).1 ∧
      (fetchLoop since (p :: rest)).2 = (fetchLoop since rest).2 + 1) ∧
    (∀ (b : Bool) (c : Option String),
      fetchLoop since
          ({ nodes := p.nodes, hasNextPage := b, endCursor := c } :: rest) =
        fetchLoop since (p :: rest)) ∧
    (∀ pr : RawPR,
      (pr.mergedAt = none ∨ ∃ m, pr.mergedAt = some m ∧ m < since) →
      processPage since (pr :: p.nodes) = processPage since p.nodes) := by
  refine ⟨?_, ?_, ?_, ?_⟩
  · intro h
    rw [fetchLoop]
    simp [h]
  · intro h
    have hne : (processPage since p.nodes).isEmpty = false :=
      List.isEmpty_eq_false.mpr h
    rw [fetchLoop]
    simp [hne]
  · intro b c
    rfl
  · rintro pr (hn | ⟨m, hm, hlt⟩)
    · rw [processPage, List.filterMap_cons, hn]
      rfl
    · rw [processPage, List.filterMap_cons, hm]
      simp only [if_pos hlt]
      rfl

/-- C3 witness: the amended stopping rule on concrete pages. -/
theorem c3_stop_rule_witness :
    processPage 0 c3page2.nodes = [] ∧
    fetchLoop 0 [c3page2] = ([], 1) ∧
    processPage 0 c3page1.nodes ≠ [] ∧
    (fetchLoop 0 [c3page1, c3page2]).2 = (fetchLoop 0 [c3page2]).2 + 1 :=
  ⟨rfl, (c3_stop_rule 0 c3page2 []).1 rfl, by decide,
    ((c3_stop_rule 0 c3page1 [c3page2]).2.1 (by decide)).2⟩

/-- C4 counterexample: the spec's end-to-end example does NOT score
exactly 16.9 in the program.  `score.py:139` multiplies the integer 13
by the double `1.3` in IEEE binary64; the result is
`4756927106410087 * 2^(-48)` = 16.900000000000002, which is neither the
rational 169/10 (cross-multiplied: `m * 10 ≠ 169 * 2^48`) nor the
binary64 parse of the literal `16.9` (Python's `== 16.9` is False). -/
theorem c4_counterexample :
    prPointsFP c4specRow = ⟨4756927106410087, -48⟩ ∧
    (4756927106410087 : ℕ) * 10 ≠ 169 * 2^48 ∧
    fp64ofRat 169 10 = ⟨4756927106410086, -48⟩ ∧
    prPointsFP c4specRow ≠ fp64ofRat 169 10 :=
  ⟨by decide, by decide, by decide, by decide⟩

/-- C4 (amended): the core-area multiplier is applied to the entire
accumulated total (base + size bonus + tests/docs bonus + bugfix bonus +
infra bonus), the first matching pattern in the ordered list wins, and
no match leaves the multiplier at 1.0.  A record with base+bonuses = 20
and a 1.3 match scores exactly 26.0 (26 is representable, the product
rounds to it exactly, `m = 26 * 2^48` at exponent −48); the spec's
end-to-end example scores 16.9 only up to double rounding: the program's
binary64 value is `4756927106410087 * 2^(-48)` = 16.900000000000002,
one ulp above 16.9, and the exact-rational evaluation of the same
formula gives 169/10. -/
theorem c4_multiplier_rounded :
    (∀ pr : Row, prPoints pr = prBaseBonuses pr * core_multiplier pr.files) ∧
    (∀ pr : Row, (prBaseBonusesN pr : ℚ) = prBaseBonuses pr) ∧
    (∀ files : List String, files.any coreMatch1 = true →
      core_multiplier files = 13/10) ∧
    (∀ files : List String, files.any coreMatch1 = false →
      files.any coreMatch2 = true → core_multiplier files = 5/4) ∧
    (∀ files : List String, files.any coreMatch1 = false →
      files.any coreMatch2 = false → core_multiplier files = 1) ∧
    prBaseBonusesN c4row20 = 20 ∧
    prPointsFP c4row20 = ⟨26 * 2^48, -48⟩ ∧
    prBaseBonusesN c4specRow = 13 ∧
    prPointsFP c4specRow = ⟨4756927106410087, -48⟩ ∧
    prPoints c4specRow = 169/10 := by
  have hcast : ∀ pr : Row, (prBaseBonusesN pr : ℚ) = prBaseBonuses pr := by
    intro pr
    rw [prBaseBonuses, prBaseBonusesN]
    split_ifs <;> push_cast <;> ring
  have hb13 : prBaseBonuses c4specRow = 13 := by
    rw [← hcast, show prBaseBonusesN c4specRow = 13 from by decide]
    norm_num
  refine ⟨prPoints_eq, hcast, core_multiplier_of_match1,
    core_multiplier_of_match2, core_multiplier_of_no_match,
    by decide, by decide, by decide, by decide, ?_⟩
  rw [prPoints_eq, core_multiplier_of_match1 _ (by decide), hb13]
  norm_num

/-- C4 witness: the first-pattern rule applied at a concrete path set. -/
theorem c4_multiplier_rounded_witness :
    (["src/x.py"].any coreMatch1 = true) ∧
    core_multiplier ["src/x.py"] = 13/10 :=
  ⟨by decide, c4_multiplier_rounded.2.2.1 ["src/x.py"] (by decide)⟩

/-- C5: attribution of a record's post-multiplier point total is a
binary either/or: a record matching the infra/tooling pattern adds its
whole total to the author's leadership bucket and nothing to delivery;
any other record adds its whole total to delivery and nothing to
leadership. -/
theorem c5_attribution (df : List Row) (pr : Row) :
    (is_infra_or_tooling pr.files = true →
      leadership_breakdown (df ++ [pr]) pr.author =
        leadership_breakdown df pr.author + prPoints pr ∧
      delivery_breakdown (df ++ [pr]) pr.author =
        delivery_breakdown df pr.author) ∧
    (is_infra_or_tooling pr.files = false →
      delivery_breakdown (df ++ [pr]) pr.author =
        delivery_breakdown df pr.author + prPoints pr ∧
      leadership_breakdown (df ++ [pr]) pr.author =
        leadership_breakdown df pr.author) := by
  constructor
  · intro h
    constructor
    · rw [leadership_breakdown, leadership_breakdown, List.filter_append,
        accumF_append]
      congr 1
      rw [show List.filter (fun r => is_infra_or_tooling r.files) [pr] = [pr]
        from by simp [h]]
      exact accumF_singleton Row.author prPoints pr
    · rw [delivery_breakdown, delivery_breakdown, List.filter_append,
        accumF_append]
      rw [show List.filter (fun r => !is_infra_or_tooling r.files) [pr] = []
        from by simp [h]]
      rw [show accumF Row.author prPoints ([] : List Row) pr.author = 0
        from by rw [accumF_apply]; rfl]
      rw [add_zero]
  · intro h
    constructor
    · rw [delivery_breakdown, delivery_breakdown, List.filter_append,
        accumF_append]
      congr 1
      rw [show List.filter (fun r => !is_infra_or_tooling r.files) [pr] = [pr]
        from by simp [h]]
      exact accumF_singleton Row.author prPoints pr
    · rw [leadership_breakdown, leadership_breakdown, List.filter_append,
        accumF_append]
      rw [show List.filter (fun r => is_infra_or_tooling r.files) [pr] = []
        from by simp [h]]
      rw [show accumF Row.author prPoints ([] : List Row) pr.author = 0
        from by rw [accumF_apply]; rfl]
      rw [add_zero]

/-- C5 witness: an infra/tooling record attributed wholly to
leadership. -/
theorem c5_attribution_witness :
    is_infra_or_tooling c5pr.files = true ∧
    leadership_breakdown ([] ++ [c5pr]) c5pr.author =
      leadership_breakdown [] c5pr.author + prPoints c5pr ∧
    delivery_breakdown ([] ++ [c5pr]) c5pr.author =
      delivery_breakdown [] c5pr.author :=
  ⟨by decide, ((c5_attribution [] c5pr).1 (by decide)).1,
    ((c5_attribution [] c5pr).1 (by decide)).2⟩

/-- C6 counterexample: the frozen activity table of a concrete run keeps
a review that has no submission timestamp — ingestion does not drop
it (the drop only happens later in the scoring stage). -/
theorem c6_counterexample :
    fetchMain 0 [c6page1, c6pageEmpty] = Except.ok [mkRow c6pr 3] ∧
    mkRow c6pr 3 ∈ [mkRow c6pr 3] ∧
    flattenReview c6review ∈ (mkRow c6pr 3).reviews ∧
    (flattenReview c6review).submittedAt = none :=
  ⟨rfl, by simp, by decide, rfl⟩

/-- C6 (amended): ingestion flattens EVERY embedded review into
reviewer identity, disposition and (optional) timestamp — reviews with
no submission timestamp are kept in the frozen activity table; they are
dropped later when the scoring stage builds its review table, which
contains exactly the timestamped reviews. -/
theorem c6_flatten_keeps_reviews :
    (∀ (pr : RawPR) (m : Int),
      (mkRow pr m).reviews = pr.reviews.map flattenReview) ∧
    (∀ df : List Row, (buildReviewRows df).length =
      (df.map fun pr =>
        (pr.reviews.filter fun rv => rv.submittedAt.isSome).length).sum) :=
  ⟨fun _ _ => rfl, buildReviewRows_length⟩

/-- C7: the scored output has exactly one row per contributor in the
union of record authors and review submitters, and a person who only
reviewed appears with delivery = 0, leadership = 0 and reviews > 0. -/
theorem c7_contributor_universe (df : List Row) (eng : String) :
    (eng ∈ (scoreTable df).map ContributorScore.engineer ↔
      eng ∈ df.map Row.author ∨
        eng ∈ (buildReviewRows df).map ReviewRow.reviewer) ∧
    ((scoreTable df).map ContributorScore.engineer).Nodup ∧
    (eng ∉ df.map Row.author →
      eng ∈ (buildReviewRows df).map ReviewRow.reviewer →
      (scoreRow df eng).delivery = 0 ∧ (scoreRow df eng).leadership = 0 ∧
        0 < (scoreRow df eng).reviews ∧ scoreRow df eng ∈ scoreTable df) := by
  have hperm := scoreTable_map_engineer_perm df
  refine ⟨?_, ?_, ?_⟩
  · rw [hperm.mem_iff, engineersOf, dedupKeepFirst_mem, List.mem_append]
  · exact hperm.symm.nodup (dedupKeepFirst_nodup _)
  · intro ha hr
    refine ⟨?_, ?_, ?_, ?_⟩
    · rw [scoreRow_delivery, delivery_breakdown]
      apply accumF_eq_zero
      intro x hx hkey
      exact ha (List.mem_map.mpr ⟨x, (List.mem_filter.mp hx).1, hkey⟩)
    · rw [scoreRow_leadership, leadership_breakdown]
      apply accumF_eq_zero
      intro x hx hkey
      exact ha (List.mem_map.mpr ⟨x, (List.mem_filter.mp hx).1, hkey⟩)
    · rw [scoreRow_reviews]
      exact reviewer_scores_pos df eng hr
    · have hin : eng ∈ engineersOf df := by
        rw [engineersOf, dedupKeepFirst_mem, List.mem_append]
        exact Or.inr hr
      rw [scoreTable]
      exact (sortByScoreDesc_perm _).mem_iff.mpr
        (List.mem_map_of_mem (scoreRow df) hin)

/-- C7 witness: `bob` reviews but never authors in a concrete table. -/
theorem c7_contributor_universe_witness :
    "bob" ∉ c7df.map Row.author ∧
    "bob" ∈ (buildReviewRows c7df).map ReviewRow.reviewer ∧
    ((scoreRow c7df "bob").delivery = 0 ∧
      (scoreRow c7df "bob").leadership = 0 ∧
      0 < (scoreRow c7df "bob").reviews ∧
      scoreRow c7df "bob" ∈ scoreTable c7df) :=
  ⟨by decide, by decide,
    (c7_contributor_universe c7df "bob").2.2 (by decide) (by decide)⟩

/-- C8: when zero records survive the window filter across all pages the
run fails with a fatal error and produces no final table, and a
successful run's final table is never empty — it is exactly the
collected in-window rows (the defensive re-filter removes nothing). -/
theorem c8_empty_fatal (since : Int) (pages : List Page) :
    ((fetchLoop since pages).1 = [] →
      fetchMain since pages = Except.error "No PRs collected") ∧
    (∀ out : List Row, fetchMain since pages = Except.ok out →
      out ≠ [] ∧ out = (fetchLoop since pages).1) := by
  constructor
  · intro h
    rw [fetchMain]
    simp [h]
  · intro out hout
    rw [fetchMain] at hout
    by_cases he : (fetchLoop since pages).1.isEmpty
    · simp [he] at hout
    · simp only [he, Bool.false_eq_true, if_false, Except.ok.injEq] at hout
      have hne : (fetchLoop since pages).1 ≠ [] := fun hc => by simp [hc] at he
      have hfull : (fetchLoop since pages).1.filter
          (fun r => decide (since ≤ r.mergedAt)) = (fetchLoop since pages).1 :=
        List.filter_eq_self.mpr fun r hr => by
          simpa using fetchLoop_mem_since hr
      rw [← hout, hfull]
      exact ⟨hne, rfl⟩

/-- C8 witness: a run whose only PR is out of window aborts. -/
theorem c8_empty_fatal_witness :
    (fetchLoop 0 [c8page]).1 = [] ∧
    fetchMain 0 [c8page] = Except.error "No PRs collected" :=
  ⟨rfl, (c8_empty_fatal 0 [c8page]).1 rfl⟩

/-- C9: the Scoring Engine is a pure, deterministic function of its
input activity table: two runs on the same table yield identical rows —
same engineers, same four point totals, same order and same evidence
strings.  In this embedding scoring is a total function, so the
property is definitional. -/
theorem c9_deterministic (df1 df2 : List Row) (h : df1 = df2) :
    scoreTable df1 = scoreTable df2 ∧
    (scoreTable df1).map (fun r =>
        (r.engineer, r.impact_score, r.delivery, r.reviews, r.leadership,
          r.why)) =
      (scoreTable df2).map (fun r =>
        (r.engineer, r.impact_score, r.delivery, r.reviews, r.leadership,
          r.why)) := by
  subst h
  exact ⟨rfl, rfl⟩

/-- C9 witness: two runs on a concrete (empty) table coincide. -/
theorem c9_deterministic_witness :
    scoreTable [] = scoreTable [] ∧
    (scoreTable []).map (fun r =>
        (r.engineer, r.impact_score, r.delivery, r.reviews, r.leadership,
          r.why)) =
      (scoreTable []).map (fun r =>
        (r.engineer, r.impact_score, r.delivery, r.reviews, r.leadership,
          r.why)) :=
  c9_deterministic [] [] rfl

/-- C10: a review whose author is missing (or has an empty login)
flattens to the sentinel reviewer "unknown" — the same sentinel a record
with a missing author gets — and the reviewer score of "unknown" pools
the points of exactly the review rows carrying that sentinel, so
anonymous review activity accumulates on one contributor instead of
being dropped. -/
theorem c10_unknown_pooling :
    (∀ rv : RawReview, (rv.author = none ∨ rv.author = some "") →
      (flattenReview rv).reviewer = "unknown") ∧
    (∀ (pr : RawPR) (m : Int), (pr.author = none ∨ pr.author = some "") →
      (mkRow pr m).author = "unknown") ∧
    (∀ df : List Row, reviewer_scores df "unknown" =
      (((buildReviewRows df).filter fun rr =>
        decide (rr.reviewer = "unknown")).map reviewPts).sum) := by
  refine ⟨?_, ?_, ?_⟩
  · rintro rv (h | h) <;> simp [flattenReview, orUnknown, h]
  · rintro pr m (h | h) <;> simp [mkRow, orUnknown, h]
  · intro df
    rw [reviewer_scores, accumF_apply]

/-- C10 witness: an authorless review flattens to reviewer "unknown". -/
theorem c10_unknown_pooling_witness :
    (c10review.author = none ∨ c10review.author = some "") ∧
    (flattenReview c10review).reviewer = "unknown" :=
  ⟨Or.inl rfl, c10_unknown_pooling.1 c10review (Or.inl rfl)⟩

end Impact
